import Mathlib

/-!
# Verification of the localplay ingestion and progress engine

Shallow embedding of the core of the localplay repository:
`src/utils/folderParser.ts`, `src/utils/storage.ts`,
`src/hooks/useProgress.ts` and `src/hooks/useFileSystem.ts`.

Strings are modelled as `List Char` (`Str`).  JavaScript numbers are
modelled as rationals; machine floats are idealised as exact rational
arithmetic.  Asynchronous media probing is modelled by an explicit
outcome datatype (`ProbeResult` / `ThumbResult`): a probe call either
delivers a duration / image or fails (decode error, or the 5s / 10s
timeout firing first), exactly the cases in which the source resolves
the promise with `0` respectively `''`.
-/

/-- Strings are modelled as lists of characters. -/
abbrev Str := List Char

/-- JS `\s` (whitespace class), restricted to the ASCII range:
space and the control characters TAB, LF, VT, FF, CR. -/
def jsSpace (c : Char) : Bool :=
  c == ' ' || (9 ≤ c.toNat && c.toNat ≤ 13)

/-- JS `String.prototype.trim`: drop whitespace from both ends. -/
def jsTrim (s : Str) : Str :=
  ((s.dropWhile jsSpace).reverse.dropWhile jsSpace).reverse

/-- ASCII lower-casing of one character (JS `toLowerCase`,
restricted to the ASCII letters that occur in the data we model). -/
def toLowerAscii (c : Char) : Char :=
  if 'A' ≤ c && c ≤ 'Z' then Char.ofNat (c.toNat + 32) else c

/-- Lower-case a whole string. -/
def lowerStr (s : Str) : Str := s.map toLowerAscii

/-- JS `String.prototype.endsWith` on the character-list model. -/
def strEndsWith (s suffix : Str) : Bool :=
  decide (s.reverse.take suffix.length = suffix.reverse)

/-- Numeric value of a digit string, as read by `parseInt(-, 10)`. -/
def digitsToNat (s : Str) : ℕ :=
  s.foldl (fun n c => 10 * n + (c.toNat - 48)) 0

/-- JS `name.replace(/\.[^/.]+$/, '')`: strip the last extension,
i.e. the last dot together with the nonempty dot-free, slash-free
segment following it, when the name ends in such a segment. -/
def stripLastExt (s : Str) : Str :=
  let seg := s.reverse.takeWhile (fun c => c != '.' && c != '/')
  match s.reverse.drop seg.length with
  | '.' :: rest => if seg.isEmpty then s else rest.reverse
  | _ => s

/-! ## folderParser.ts: names, sort keys, ids -/

/-- Source `VIDEO_EXTENSIONS` from `folderParser.ts`. -/
def VIDEO_EXTENSIONS : List Str :=
  [(".mp4").data, (".webm").data, (".ogg").data, (".mov").data,
   (".avi").data, (".mkv").data, (".m4v").data, (".flv").data,
   (".wmv").data, (".mpg").data, (".mpeg").data]

/-- Source `isVideoFile`: lower-case the name, slice from the last dot
(`lastIndexOf` yields `-1`, i.e. the last character, when there is no
dot) and test membership in `VIDEO_EXTENSIONS`. -/
def isVideoFile (filename : Str) : Bool :=
  let lower := lowerStr filename
  let ext :=
    if '.' ∈ filename then
      '.' :: (lower.reverse.takeWhile (fun c => c != '.')).reverse
    else
      lower.drop (lower.length - 1)
  decide (ext ∈ VIDEO_EXTENSIONS)

/-- Source `extractNumber`: value of the leading digit run (regex `^(\d+)`),
`Infinity` (here `⊤`) when the name does not start with a digit. -/
def extractNumber (name : Str) : WithTop ℕ :=
  let d := name.takeWhile Char.isDigit
  if d.isEmpty then ⊤ else ((digitsToNat d : ℕ) : WithTop ℕ)

/-- Source `extractNumberPrefix`: the leading digit run itself,
empty when there is none. -/
def extractNumLabel (name : Str) : Str :=
  name.takeWhile Char.isDigit

/-- Separator class of `cleanName`: the regex character class
`[\s\-_.]`. -/
def isSepChar (c : Char) : Bool :=
  jsSpace c || c == '-' || c == '_' || c == '.'

/-- Source `cleanName`: `name.replace(/^\d+[\s\-_.]*/, '').trim()` — when the
name starts with a digit, drop the leading digit run and the following
separator characters; in every case trim the result. -/
def cleanName (name : Str) : Str :=
  if (name.takeWhile Char.isDigit).isEmpty then jsTrim name
  else jsTrim ((name.dropWhile Char.isDigit).dropWhile isSepChar)

/-- Source `generateCourseId`. -/
def generateCourseId (folderName : Str) : Str :=
  ("course-").data ++ folderName

/-- Source `generateLessonId`. -/
def generateLessonId (courseName lessonName : Str) : Str :=
  ("lesson-").data ++ courseName ++ ("-").data ++ lessonName

/-- Source `generateVideoId`. -/
def generateVideoId (courseName lessonName fileName : Str) : Str :=
  ("video-").data ++ courseName ++ ("-").data ++ lessonName
    ++ ("-").data ++ fileName

/-! ## Filesystem model and media probing -/

/-- A filesystem entry as seen through the File System Access API:
either a file handle (with the size reported by `getFile()`) or a
directory handle with its child entries, in enumeration order. -/
inductive FsEntry
  | file (name : Str) (size : ℚ)
  | dir (name : Str) (entries : List FsEntry)

/-- Model of `getDirectoryHandle(name)` over a list of sibling
entries: the child directory of that exact name, `none` when absent
(the source then throws, which every caller catches). -/
def getDirEntries (entries : List FsEntry) (dname : Str) :
    Option (List FsEntry) :=
  entries.findSome? fun e =>
    match e with
    | .dir n ents => if n = dname then some ents else none
    | .file _ _ => none

/-- Outcome of one `getVideoDuration` probe: the metadata callback
delivers a duration, or the error callback fires, or the 5 s timeout
fires first. -/
inductive ProbeResult
  | ok (d : ℚ)
  | err
  | timeout
deriving DecidableEq

/-- Whether a probe outcome is a failure. -/
def ProbeResult.failed : ProbeResult → Bool
  | .ok _ => false
  | .err => true
  | .timeout => true

/-- Source `getVideoDuration`: resolves with the decoded duration on
success and with `0` on decode error or timeout (it never rejects). -/
def getVideoDuration : ProbeResult → ℚ
  | .ok d => d
  | .err => 0
  | .timeout => 0

/-- Outcome of one `generateThumbnail` probe: a data URL on success;
decode error, the 10 s timeout, or a missing canvas context all
resolve with the empty string. -/
inductive ThumbResult
  | ok (img : Str)
  | err
  | timeout
  | noCtx
deriving DecidableEq

/-- Whether a thumbnail outcome is a failure. -/
def ThumbResult.failed : ThumbResult → Bool
  | .ok _ => false
  | _ => true

/-- Source `generateThumbnail`: the data URL on success, `''` on any
failure (it never rejects). -/
def generateThumbnail : ThumbResult → Str
  | .ok img => img
  | _ => []

/-! ## Subtitle matching -/

/-- Directory-name suffix of the caption sidecar convention. -/
def subtitleSuffix : Str := ("_subtitles").data

/-- Extension tested by `findSubtitleForVideo`. -/
def srtExt : Str := (".srt").data

/-- JS `name.replace(/\.srt$/i, '')`: drop a case-insensitive final
`.srt`, otherwise leave the name unchanged. -/
def stripSrt (n : Str) : Str :=
  if strEndsWith (lowerStr n) srtExt then n.take (n.length - 4) else n

/-- Loop body of `findSubtitleForVideo`: a file entry whose
lower-cased name ends in `.srt` and whose name with the `.srt`
extension stripped equals the video name with its extension stripped
is a match. -/
def srtMatch (videoBase : Str) : FsEntry → Option Str
  | .file n _ =>
      if strEndsWith (lowerStr n) srtExt && decide (stripSrt n = videoBase)
      then some n else none
  | .dir _ _ => none

/-- Source `findSubtitleForVideo`: look up the sibling directory
`{lessonName}_subtitles`; inside it, return the first `.srt` file
whose base name equals the video's base name.  A missing sidecar
directory or a missing match yields `none` (the source catches the
lookup failure). -/
def findSubtitleForVideo (parent : List FsEntry)
    (lessonName videoFilename : Str) : Option Str :=
  match getDirEntries parent (lessonName ++ subtitleSuffix) with
  | none => none
  | some ents => ents.findSome? (srtMatch (stripLastExt videoFilename))

/-- Modelled from the spec's words for claim C7 (refinement check
only): the match is the first file in the sidecar directory whose
name with its extension stripped equals the item's name with its
extension stripped, with no restriction on the caption extension. -/
def findSubtitleSpec (parent : List FsEntry)
    (lessonName videoFilename : Str) : Option Str :=
  match getDirEntries parent (lessonName ++ subtitleSuffix) with
  | none => none
  | some ents =>
      ents.findSome? fun e =>
        match e with
        | .file n _ =>
            if decide (stripLastExt n = stripLastExt videoFilename)
            then some n else none
        | .dir _ _ => none

/-! ## The catalog data model -/

/-- Source `Video` (an Item): the matched subtitle file handle is
modelled by the matched file name. -/
structure Video where
  id : Str
  name : Str
  filename : Str
  size : ℚ
  duration : ℚ
  sortOrder : WithTop ℕ
  sortLabel : Str
  subtitleFile : Option Str
deriving DecidableEq

/-- Source `Lesson` (a Section). -/
structure Lesson where
  id : Str
  name : Str
  originalName : Str
  videos : List Video
  totalVideos : ℕ
  totalDuration : ℚ
  sortOrder : WithTop ℕ
  sortLabel : Str
  thumbnail : Str
deriving DecidableEq

/-- Source `Course` (a Collection). -/
structure Course where
  id : Str
  title : Str
  originalName : Str
  lessons : List Lesson
  totalLessons : ℕ
  totalVideos : ℕ
  totalDuration : ℚ
deriving DecidableEq

/-- Comparator `(a, b) => a.sortOrder - b.sortOrder` of the video
sort, as the ordering it induces (`Infinity - Infinity` is `NaN`,
which JS sorting treats as `0`, i.e. as a tie). -/
def vidLE (a b : Video) : Prop := a.sortOrder ≤ b.sortOrder

/-- Comparator of the lesson sort. -/
def lesLE (a b : Lesson) : Prop := a.sortOrder ≤ b.sortOrder

instance : DecidableRel vidLE := fun a b =>
  inferInstanceAs (Decidable (a.sortOrder ≤ b.sortOrder))

instance : DecidableRel lesLE := fun a b =>
  inferInstanceAs (Decidable (a.sortOrder ≤ b.sortOrder))

instance : IsTotal Video vidLE :=
  ⟨fun a b => le_total a.sortOrder b.sortOrder⟩

instance : IsTrans Video vidLE :=
  ⟨fun _ _ _ hab hbc => le_trans hab hbc⟩

instance : IsTotal Lesson lesLE :=
  ⟨fun a b => le_total a.sortOrder b.sortOrder⟩

instance : IsTrans Lesson lesLE :=
  ⟨fun _ _ _ hab hbc => le_trans hab hbc⟩

/-! ## Ingestion -/

/-- Body of the enumeration loop of `parseLessonFolder`: each file
entry with a recognized video extension becomes a `Video`, in
enumeration order, before sorting.  `dur` gives the outcome of the
duration probe for a (lesson name, file name) pair. -/
def rawVideos (dur : Str → Str → ProbeResult) (parent : List FsEntry)
    (dirName : Str) (ents : List FsEntry) (courseName : Str) :
    List Video :=
  ents.filterMap fun e =>
    match e with
    | .file n sz =>
        if isVideoFile n then
          some { id := generateVideoId courseName dirName n
               , name := cleanName (stripLastExt n)
               , filename := n
               , size := sz
               , duration := getVideoDuration (dur dirName n)
               , sortOrder := extractNumber n
               , sortLabel := extractNumLabel n
               , subtitleFile := findSubtitleForVideo parent dirName n }
        else none
    | .dir _ _ => none

/-- Source `parseLessonFolder`: collect the videos, sort them by
`sortOrder` (JS `Array.prototype.sort` is stable), sum the durations,
and derive the lesson thumbnail from the first video (empty when the
lesson has no videos).  `thumb` gives the outcome of the thumbnail
probe for the lesson. -/
def parseLessonFolder (dur : Str → Str → ProbeResult)
    (thumb : Str → ThumbResult) (parent : List FsEntry) (dirName : Str)
    (ents : List FsEntry) (courseName : Str) : Lesson :=
  let videos := List.insertionSort vidLE
    (rawVideos dur parent dirName ents courseName)
  { id := generateLessonId courseName dirName
  , name := cleanName dirName
  , originalName := dirName
  , videos := videos
  , totalVideos := videos.length
  , totalDuration := (videos.map Video.duration).sum
  , sortOrder := extractNumber dirName
  , sortLabel := extractNumLabel dirName
  , thumbnail :=
      if videos.isEmpty then [] else generateThumbnail (thumb dirName) }

/-- Enumeration loop of `parseFolderStructure`, before sorting: each
child directory not named `*_subtitles` is parsed as a lesson, and
only lessons with at least one video are kept. -/
def keptLessons (dur : Str → Str → ProbeResult)
    (thumb : Str → ThumbResult) (rootName : Str)
    (rootEntries : List FsEntry) : List Lesson :=
  rootEntries.filterMap fun e =>
    match e with
    | .dir n ents =>
        if strEndsWith n subtitleSuffix then none
        else
          let l := parseLessonFolder dur thumb rootEntries n ents rootName
          if l.videos.isEmpty then none else some l
    | .file _ _ => none

/-- Source `parseFolderStructure`: keep the nonempty lessons, sort
them by `sortOrder` (stable), and total the counts and durations. -/
def parseFolderStructure (dur : Str → Str → ProbeResult)
    (thumb : Str → ThumbResult) (rootName : Str)
    (rootEntries : List FsEntry) : Course :=
  let kept := keptLessons dur thumb rootName rootEntries
  { id := generateCourseId rootName
  , title := cleanName rootName
  , originalName := rootName
  , lessons := List.insertionSort lesLE kept
  , totalLessons := kept.length
  , totalVideos := (kept.map Lesson.totalVideos).sum
  , totalDuration := (kept.map Lesson.totalDuration).sum }

/-! ## Folder selection and persistence -/

/-- The persistence calls of `selectFolder`, in order. -/
inductive PersistOp
  | saveFolderHandle (id : Str)
  | saveCourse (id : Str)
deriving DecidableEq

/-- Result of `selectFolder`: a parsed course, or the empty-catalog
error (`'No lesson subfolders with videos found…'`) after which
`selectFolder` returns `null`. -/
inductive SelectOutcome
  | ok (c : Course)
  | emptyCatalog
deriving DecidableEq

/-- Source `selectFolder` in `useFileSystem.ts`, after a granted
permission: parse the tree; when no lesson remains, report the
empty-catalog error and persist nothing; otherwise persist the folder
handle and the course, in that order. -/
def selectFolder (dur : Str → Str → ProbeResult)
    (thumb : Str → ThumbResult) (rootName : Str)
    (rootEntries : List FsEntry) : SelectOutcome × List PersistOp :=
  let course := parseFolderStructure dur thumb rootName rootEntries
  if course.lessons.isEmpty then (.emptyCatalog, [])
  else (.ok course,
        [.saveFolderHandle course.id, .saveCourse course.id])

/-! ## The progress store -/

/-- Source `VideoProgress`. -/
structure VideoProgress where
  id : Str
  currentTime : ℚ
  duration : ℚ
  percentage : ℚ
  lastWatched : ℚ
deriving DecidableEq

/-- The `progress` object store of IndexedDB, keyed by record id. -/
abbrev ProgressMap := Str → Option VideoProgress

/-- The empty store. -/
def emptyProgress : ProgressMap := fun _ => none

/-- Model of `db.put('progress', r)` with key path `id`. -/
def putRecord (m : ProgressMap) (r : VideoProgress) : ProgressMap :=
  fun i => if i = r.id then some r else m i

/-- Source `saveProgress` in `storage.ts`: upsert the record with
`percentage = (currentTime / duration) * 100` and
`lastWatched = Date.now()` (passed in as `now`). -/
def saveProgress (m : ProgressMap) (videoId : Str)
    (currentTime duration now : ℚ) : ProgressMap :=
  putRecord m
    { id := videoId
    , currentTime := currentTime
    , duration := duration
    , percentage := currentTime / duration * 100
    , lastWatched := now }

/-- Source `getProgress`. -/
def getProgress (m : ProgressMap) (videoId : Str) :
    Option VideoProgress :=
  m videoId

/-- Modelled from the spec: `clearLastWatched` is imported from
`../utils/storage` by `useProgress.ts` but absent from the `storage.ts`
source; per the spec, `clearRecency(itemId)` sets `lastWatchedAt = 0`
without altering position. -/
def clearLastWatched (m : ProgressMap) (videoId : Str) : ProgressMap :=
  fun j =>
    if j = videoId then (m videoId).map fun r => { r with lastWatched := 0 }
    else m j

/-- Source `isCompleted` in `useProgress.ts`: a missing record is not
complete; otherwise `percentage > 95 || duration - currentTime < 5`. -/
def isCompleted (m : ProgressMap) (videoId : Str) : Bool :=
  match m videoId with
  | none => false
  | some p =>
      decide (p.percentage > 95) || decide (p.duration - p.currentTime < 5)

/-- Source `getLessonProgress`: `0` for a lesson with no videos, else
`Math.round((completedVideos / lesson.videos.length) * 100)`. -/
def getLessonProgress (m : ProgressMap) (lesson : Lesson) : ℤ :=
  if lesson.videos.length = 0 then 0
  else
    round ((((lesson.videos.filter fun v => isCompleted m v.id).length : ℚ)
      / (lesson.videos.length : ℚ)) * 100)

/-- Source `getCourseProgress`: `0` when the stored `totalVideos`
field is `0`; otherwise recount the videos across lessons, return `0`
when the recount is `0`, else `Math.round((completed / total) * 100)`. -/
def getCourseProgress (m : ProgressMap) (course : Course) : ℤ :=
  if course.totalVideos = 0 then 0
  else if (course.lessons.map fun l => l.videos.length).sum = 0 then 0
  else
    round (((((course.lessons.map fun l =>
        (l.videos.filter fun v => isCompleted m v.id).length).sum : ℕ) : ℚ)
      / (((course.lessons.map fun l => l.videos.length).sum : ℕ) : ℚ)) * 100)

/-! ## Helper lemmas -/

/-- A failed duration probe resolves with `0`. -/
lemma getVideoDuration_failed {r : ProbeResult} (h : r.failed = true) :
    getVideoDuration r = 0 := by
  cases r with
  | ok d => simp [ProbeResult.failed] at h
  | err => rfl
  | timeout => rfl

/-- A failed thumbnail probe resolves with the empty string. -/
lemma generateThumbnail_failed {r : ThumbResult} (h : r.failed = true) :
    generateThumbnail r = [] := by
  cases r with
  | ok img => simp [ThumbResult.failed] at h
  | err => rfl
  | timeout => rfl
  | noCtx => rfl

/-- Number of recognized media files among a list of entries. -/
def countVideoFiles (ents : List FsEntry) : ℕ :=
  (ents.filter fun e =>
    match e with
    | .file n _ => isVideoFile n
    | .dir _ _ => false).length

/-- The enumeration loop of `parseLessonFolder` produces one video per
recognized media file, whatever the probe outcomes. -/
lemma length_rawVideos (dur : Str → Str → ProbeResult)
    (parent : List FsEntry) (dirName : Str) (courseName : Str) :
    ∀ ents, (rawVideos dur parent dirName ents courseName).length =
      countVideoFiles ents
  | [] => rfl
  | e :: es => by
      have ih := length_rawVideos dur parent dirName courseName es
      cases e with
      | file n sz =>
          by_cases h : isVideoFile n
          · simpa [rawVideos, countVideoFiles, List.filterMap_cons,
              List.filter_cons, h] using ih
          · simpa [rawVideos, countVideoFiles, List.filterMap_cons,
              List.filter_cons, h] using ih
      | dir n ents2 =>
          simpa [rawVideos, countVideoFiles, List.filterMap_cons,
            List.filter_cons] using ih

/-- The sorted video list of a parsed lesson has one entry per
recognized media file. -/
lemma length_parseLessonFolder (dur : Str → Str → ProbeResult)
    (thumb : Str → ThumbResult) (parent : List FsEntry) (dirName : Str)
    (ents : List FsEntry) (courseName : Str) :
    (parseLessonFolder dur thumb parent dirName ents courseName).videos.length
      = countVideoFiles ents := by
  show (List.insertionSort vidLE
    (rawVideos dur parent dirName ents courseName)).length = _
  rw [List.length_insertionSort, length_rawVideos]

/-- Bounds of the rounded percentage `round ((c / t) * 100)`. -/
lemma round_pct_bounds (c t : ℕ) (hct : c ≤ t) (ht : 0 < t) :
    0 ≤ round (((c : ℚ) / (t : ℚ)) * 100)
      ∧ round (((c : ℚ) / (t : ℚ)) * 100) ≤ 100 := by
  have htq : (0 : ℚ) < (t : ℚ) := by exact_mod_cast ht
  have hfrac : ((c : ℚ) / (t : ℚ)) ≤ 1 :=
    (div_le_one htq).mpr (by exact_mod_cast hct)
  have hx0 : (0 : ℚ) ≤ ((c : ℚ) / (t : ℚ)) * 100 := by positivity
  have hx1 : ((c : ℚ) / (t : ℚ)) * 100 ≤ 100 := by nlinarith
  constructor
  · rw [round_eq]
    exact Int.floor_nonneg.mpr (by linarith)
  · rw [round_eq]
    have hle : (⌊((c : ℚ) / (t : ℚ)) * 100 + 1 / 2⌋ : ℤ) ≤
        ⌊(100 : ℚ) + 1 / 2⌋ := Int.floor_le_floor (by linarith)
    have h100 : (⌊(100 : ℚ) + 1 / 2⌋ : ℤ) = 100 :=
      Int.floor_eq_iff.mpr (by norm_num)
    omega

/-- One step of the stability property of `List.orderedInsert` for a
key-based total preorder: filtering on one key value commutes with the
insertion, the inserted element landing first in its key class. -/
lemma filter_key_orderedInsert {α : Type} (key : α → WithTop ℕ)
    (r : α → α → Prop) [DecidableRel r]
    (hr : ∀ a b, r a b ↔ key a ≤ key b) (k : WithTop ℕ) (x : α) :
    ∀ l : List α,
      (l.orderedInsert r x).filter (fun a => decide (key a = k)) =
        if key x = k then
          x :: l.filter (fun a => decide (key a = k))
        else l.filter (fun a => decide (key a = k))
  | [] => by
      simp only [List.orderedInsert, List.filter_cons, List.filter_nil]
      by_cases h : key x = k <;> simp [h]
  | b :: l => by
      by_cases hxb : r x b
      · simp only [List.orderedInsert, if_pos hxb, List.filter_cons]
        by_cases h : key x = k <;> simp [h]
      · have ih := filter_key_orderedInsert key r hr k x l
        have hbk : ¬ key x ≤ key b := fun hc => hxb ((hr x b).mpr hc)
        simp only [List.orderedInsert, if_neg hxb, List.filter_cons]
        by_cases hx : key x = k
        · have hb : ¬ (key b = k) := by
            intro hbeq
            exact hbk (le_of_eq (hx.trans hbeq.symm))
          simp [hb, ih, hx]
        · by_cases hb : key b = k <;> simp [hb, ih, hx]

/-- Stability of `List.insertionSort` for a key-based total preorder:
elements of equal key keep their original relative order. -/
lemma filter_key_insertionSort {α : Type} (key : α → WithTop ℕ)
    (r : α → α → Prop) [DecidableRel r]
    (hr : ∀ a b, r a b ↔ key a ≤ key b) (k : WithTop ℕ) :
    ∀ l : List α,
      (List.insertionSort r l).filter (fun a => decide (key a = k)) =
        l.filter (fun a => decide (key a = k))
  | [] => rfl
  | b :: l => by
      have ih := filter_key_insertionSort key r hr k l
      show ((List.insertionSort r l).orderedInsert r b).filter _ = _
      rw [filter_key_orderedInsert key r hr k b, List.filter_cons, ih]
      by_cases h : key b = k <;> simp [h]

/-- A match returned by the subtitle loop body is an `.srt` file whose
base name equals the video's base name. -/
lemma srtMatch_some {base n : Str} {e : FsEntry}
    (h : srtMatch base e = some n) :
    strEndsWith (lowerStr n) srtExt = true ∧ stripSrt n = base := by
  cases e with
  | file m sz =>
      by_cases hc : strEndsWith (lowerStr m) srtExt
          && decide (stripSrt m = base)
      · have hmn : m = n := by
          simpa [srtMatch, hc] using h
        subst hmn
        simpa using hc
      · simp [srtMatch, hc] at h
  | dir m ents => simp [srtMatch] at h

/-- Splitting a string at a maximal leading run of `p`-characters:
`takeWhile` returns the run and `dropWhile` the remainder. -/
lemma takeWhile_append_all {p : Char → Bool} :
    ∀ (d rest : Str), (∀ c ∈ d, p c = true) → rest.takeWhile p = [] →
      (d ++ rest).takeWhile p = d ∧ (d ++ rest).dropWhile p = rest
  | [], rest => by
      intro _ hrest
      refine ⟨by simpa using hrest, ?_⟩
      cases rest with
      | nil => rfl
      | cons c t =>
          by_cases hc : p c
          · simp [List.takeWhile_cons, hc] at hrest
          · simp [List.dropWhile_cons, hc]
  | c :: d, rest => by
      intro hd hrest
      have hc : p c = true := hd c (List.mem_cons_self c d)
      have ih := takeWhile_append_all d rest
        (fun x hx => hd x (List.mem_cons_of_mem c hx)) hrest
      simp [List.takeWhile_cons, List.dropWhile_cons, hc, ih.1, ih.2]

/-! ## Claim theorems -/

/-- C1: the completeness predicate is literally
`fractionWatched > 0.95` or `durationSeconds - positionSeconds < 5`;
with position 95 of duration 100 a record is not complete, with
position 96 of duration 100 it is. -/
theorem c1_completeness_predicate :
    (∀ (m : ProgressMap) (videoId : Str),
        isCompleted m videoId = true ↔
          ∃ p, m videoId = some p ∧
            (p.percentage / 100 > (0.95 : ℚ) ∨
              p.duration - p.currentTime < 5))
    ∧ (∀ now : ℚ,
        isCompleted (saveProgress emptyProgress (("x").data) 95 100 now)
          (("x").data) = false)
    ∧ (∀ now : ℚ,
        isCompleted (saveProgress emptyProgress (("y").data) 96 100 now)
          (("y").data) = true) := by
  refine ⟨fun m videoId => ?_, fun now => ?_, fun now => ?_⟩
  · cases h : m videoId with
    | none => simp [isCompleted, h]
    | some p =>
        have hiff : p.percentage / 100 > (0.95 : ℚ) ↔ p.percentage > 95 := by
          constructor <;> intro hh <;> [linarith; linarith]
        simp only [isCompleted, h, Bool.or_eq_true, decide_eq_true_eq,
          Option.some.injEq]
        constructor
        · rintro (h1 | h1)
          · exact ⟨p, rfl, Or.inl (hiff.mpr h1)⟩
          · exact ⟨p, rfl, Or.inr h1⟩
        · rintro ⟨q, hq, hcase⟩
          cases hq
          rcases hcase with h1 | h1
          · exact Or.inl (hiff.mp h1)
          · exact Or.inr h1
  · simp [isCompleted, saveProgress, putRecord, emptyProgress]
    norm_num
  · simp [isCompleted, saveProgress, putRecord, emptyProgress]
    norm_num

/-- C10: the id-derivation of items joins the course name, lesson
name and file name with a plain dash, so two distinct
(course, lesson) pairs can generate the same item id. -/
theorem c10_video_id_collision :
    generateVideoId (("a-b").data) (("c").data) (("f").data) =
      generateVideoId (("a").data) (("b-c").data) (("f").data)
    ∧ ((("a-b").data, ("c").data) : Str × Str) ≠
        ((("a").data, ("b-c").data) : Str × Str) := by
  constructor <;> decide

/-- C9: the spec-modelled `clearLastWatched` sets `lastWatched` to
`0`, leaves every other field and every other record unchanged, and
after `record("z", 10, 100)` the resume position 10 survives. -/
theorem c9_clear_recency :
    (∀ (m : ProgressMap) (videoId : Str) (r : VideoProgress),
        m videoId = some r →
          getProgress (clearLastWatched m videoId) videoId =
            some { r with lastWatched := 0 })
    ∧ (∀ (m : ProgressMap) (videoId j : Str), j ≠ videoId →
        getProgress (clearLastWatched m videoId) j = getProgress m j)
    ∧ (∀ (m : ProgressMap) (now : ℚ),
        getProgress
          (clearLastWatched (saveProgress m (("z").data) 10 100 now)
            (("z").data)) (("z").data) =
          some { id := ("z").data, currentTime := 10, duration := 100
               , percentage := 10, lastWatched := 0 }) := by
  refine ⟨fun m videoId r h => ?_, fun m videoId j hj => ?_,
    fun m now => ?_⟩
  · simp [getProgress, clearLastWatched, h]
  · simp [getProgress, clearLastWatched, hj]
  · simp [getProgress, clearLastWatched, saveProgress, putRecord]

/-- Witness for C9 at a concrete store. -/
theorem c9_clear_recency_witness :
    getProgress
        (clearLastWatched (saveProgress emptyProgress (("z").data) 10 100 7)
          (("z").data)) (("z").data) =
      some { id := ("z").data, currentTime := 10, duration := 100
           , percentage := 10, lastWatched := 0 }
    ∧ getProgress
        (clearLastWatched (saveProgress emptyProgress (("z").data) 10 100 7)
          (("z").data)) (("q").data) =
      getProgress (saveProgress emptyProgress (("z").data) 10 100 7)
        (("q").data) := by
  constructor
  · have h1 := c9_clear_recency.1
      (saveProgress emptyProgress (("z").data) 10 100 7) (("z").data)
      { id := ("z").data, currentTime := 10, duration := 100
      , percentage := 10, lastWatched := 7 }
      (by simp [saveProgress, putRecord])
    exact h1
  · exact c9_clear_recency.2.1
      (saveProgress emptyProgress (("z").data) 10 100 7) (("z").data)
      (("q").data) (by decide)

/-- Fraction of an optional progress record (`percentage / 100`),
`0` when absent; used to state claims about `fractionWatched`. -/
def fractionOf : Option VideoProgress → ℚ
  | some p => p.percentage / 100
  | none => 0

/-- C6 counterexample: `saveProgress` stores the raw ratio with no
clamping, so recording position 150 of duration 100 stores a
`fractionWatched` of `3/2`, outside `[0, 1]`. -/
theorem c6_unclamped_fraction_counterexample :
    fractionOf
        (getProgress (saveProgress emptyProgress (("x").data) 150 100 0)
          (("x").data)) = 3 / 2
    ∧ ¬(fractionOf
          (getProgress (saveProgress emptyProgress (("x").data) 150 100 0)
            (("x").data)) ≤ 1) := by
  have h : fractionOf
      (getProgress (saveProgress emptyProgress (("x").data) 150 100 0)
        (("x").data)) = 3 / 2 := by
    simp [fractionOf, getProgress, saveProgress, putRecord]
    norm_num
  refine ⟨h, ?_⟩
  rw [h]
  norm_num

/-- C6 amended: the stored `fractionWatched` is exactly
`positionSeconds / durationSeconds` with no clamping; it lies in
`[0, 1]` when `0 ≤ positionSeconds ≤ durationSeconds` with a positive
duration. -/
theorem c6_fraction_stored :
    ∀ (m : ProgressMap) (videoId : Str) (currentTime duration now : ℚ),
      getProgress (saveProgress m videoId currentTime duration now)
          videoId =
        some { id := videoId, currentTime := currentTime
             , duration := duration
             , percentage := currentTime / duration * 100
             , lastWatched := now }
      ∧ (0 ≤ currentTime → currentTime ≤ duration → 0 < duration →
          0 ≤ fractionOf (getProgress
                (saveProgress m videoId currentTime duration now) videoId)
          ∧ fractionOf (getProgress
                (saveProgress m videoId currentTime duration now) videoId)
              ≤ 1) := by
  intro m videoId currentTime duration now
  have hget : getProgress (saveProgress m videoId currentTime duration now)
      videoId =
      some { id := videoId, currentTime := currentTime
           , duration := duration
           , percentage := currentTime / duration * 100
           , lastWatched := now } := by
    simp [getProgress, saveProgress, putRecord]
  refine ⟨hget, fun h0 h1 h2 => ?_⟩
  rw [hget]
  have heq : currentTime / duration * 100 / 100 = currentTime / duration := by
    ring
  have hfr : fractionOf (some
      { id := videoId, currentTime := currentTime, duration := duration
      , percentage := currentTime / duration * 100, lastWatched := now }) =
      currentTime / duration := by
    simp [fractionOf, heq]
  rw [hfr]
  exact ⟨div_nonneg h0 (le_of_lt h2), (div_le_one h2).mpr h1⟩

/-- Witness for C6 at position 10 of duration 100. -/
theorem c6_fraction_stored_witness :
    getProgress (saveProgress emptyProgress (("w").data) 10 100 3)
        (("w").data) =
      some { id := ("w").data, currentTime := 10, duration := 100
           , percentage := 10 / 100 * 100, lastWatched := 3 }
    ∧ 0 ≤ fractionOf (getProgress
          (saveProgress emptyProgress (("w").data) 10 100 3) (("w").data))
    ∧ fractionOf (getProgress
          (saveProgress emptyProgress (("w").data) 10 100 3) (("w").data))
        ≤ 1 := by
  have h := c6_fraction_stored emptyProgress (("w").data) 10 100 3
  have hb := h.2 (by norm_num) (by norm_num) (by norm_num)
  exact ⟨h.1, hb.1, hb.2⟩

/-- C5 counterexample: for the source name `"1-1"` the stripped
leading run is `"1"` and the resulting display name is `"1"`, which
does contain (indeed equals) the stripped run. -/
theorem c5_display_contains_run_counterexample :
    extractNumLabel (("1-1").data) = ("1").data
    ∧ cleanName (("1-1").data) = ("1").data
    ∧ extractNumLabel (("1-1").data) <:+: cleanName (("1-1").data)
    ∧ extractNumLabel (("1-1").data) ≠ [] := by
  refine ⟨by decide, by decide, ⟨[], [], by decide⟩, by decide⟩

/-- C5 amended: when the source name starts with a digit run `d`
(maximal: the remainder starts with a non-digit), `sortKey` is the
integer denoted by `d` and `sortLabel` is `d`, and the display name is
the remainder with its leading separator characters stripped and
trimmed — it may still contain a copy of `d`; when the name starts
with no digit, `sortKey` is `⊤`, `sortLabel` is empty and the display
name is just the trimmed name. -/
theorem c5_sortkey_and_displayname :
    (∀ (d rest : Str), d ≠ [] → (∀ c ∈ d, c.isDigit = true) →
        rest.takeWhile Char.isDigit = [] →
        extractNumber (d ++ rest) = ((digitsToNat d : ℕ) : WithTop ℕ)
      ∧ extractNumLabel (d ++ rest) = d
      ∧ cleanName (d ++ rest) = jsTrim (rest.dropWhile isSepChar))
    ∧ (∀ name : Str, name.takeWhile Char.isDigit = [] →
        extractNumber name = ⊤
      ∧ extractNumLabel name = []
      ∧ cleanName name = jsTrim name) := by
  constructor
  · intro d rest hd hdig hrest
    have hsplit := takeWhile_append_all d rest hdig hrest
    have hne : ¬(d ++ rest).takeWhile Char.isDigit = [] := by
      rw [hsplit.1]
      exact hd
    refine ⟨?_, hsplit.1, ?_⟩
    · unfold extractNumber
      simp only [List.isEmpty_iff, hsplit.1]
      rw [if_neg hd]
    · unfold cleanName
      rw [hsplit.1]
      rw [if_neg (by simpa [List.isEmpty_iff] using hd)]
      rw [hsplit.2]
  · intro name hname
    refine ⟨?_, hname, ?_⟩
    · unfold extractNumber
      simp [hname]
    · unfold cleanName
      rw [if_pos (by simp [List.isEmpty_iff, hname])]

/-- Witness for C5 at `"01-Intro"` and at the digit-free `"-abc"`. -/
theorem c5_sortkey_and_displayname_witness :
    (extractNumber (("01-Intro").data) = ((1 : ℕ) : WithTop ℕ)
      ∧ extractNumLabel (("01-Intro").data) = ("01").data
      ∧ cleanName (("01-Intro").data) =
          jsTrim ((("-Intro").data).dropWhile isSepChar))
    ∧ (extractNumber (("-abc").data) = ⊤
      ∧ extractNumLabel (("-abc").data) = []
      ∧ cleanName (("-abc").data) = jsTrim (("-abc").data)) := by
  constructor
  · have h := c5_sortkey_and_displayname.1 (("01").data) (("-Intro").data)
      (by decide) (by decide) (by decide)
    exact ⟨by rw [show (("01-Intro").data) =
        ("01").data ++ ("-Intro").data from by decide]; rw [h.1]; decide,
      by rw [show (("01-Intro").data) =
        ("01").data ++ ("-Intro").data from by decide]; exact h.2.1,
      by rw [show (("01-Intro").data) =
        ("01").data ++ ("-Intro").data from by decide]; exact h.2.2⟩
  · exact c5_sortkey_and_displayname.2 (("-abc").data) (by decide)

/-- C2: the aggregate progress of a lesson and of a (well-formed)
course is an integer in `[0, 100]` equal to
`round(100 * completed / total)` under the completeness predicate,
and it is `0` when there are no items. -/
theorem c2_aggregate_progress :
    (∀ (m : ProgressMap) (lesson : Lesson),
        (0 ≤ getLessonProgress m lesson
          ∧ getLessonProgress m lesson ≤ 100)
      ∧ (lesson.videos = [] → getLessonProgress m lesson = 0)
      ∧ (lesson.videos ≠ [] →
          getLessonProgress m lesson =
            round ((100 * (((lesson.videos.filter fun v =>
                isCompleted m v.id).length : ℕ) : ℚ))
              / ((lesson.videos.length : ℚ)))))
    ∧ (∀ (m : ProgressMap) (course : Course),
        course.totalVideos =
            (course.lessons.map fun l => l.videos.length).sum →
        ((0 ≤ getCourseProgress m course
          ∧ getCourseProgress m course ≤ 100)
      ∧ (course.totalVideos = 0 → getCourseProgress m course = 0)
      ∧ (course.totalVideos ≠ 0 →
          getCourseProgress m course =
            round ((100 * (((course.lessons.map fun l =>
                (l.videos.filter fun v =>
                  isCompleted m v.id).length).sum : ℕ) : ℚ))
              / ((((course.lessons.map fun l =>
                  l.videos.length).sum : ℕ) : ℚ)))))) := by
  constructor
  · intro m lesson
    by_cases h0 : lesson.videos.length = 0
    · have hnil : lesson.videos = [] := List.length_eq_zero.mp h0
      exact ⟨by simp [getLessonProgress, h0],
        fun _ => by simp [getLessonProgress, h0],
        fun hne => absurd hnil hne⟩
    · have hpos : 0 < lesson.videos.length := Nat.pos_of_ne_zero h0
      have hle := List.length_filter_le
        (fun v => isCompleted m v.id) lesson.videos
      have hb := round_pct_bounds _ _ hle hpos
      have hval : getLessonProgress m lesson =
          round ((((lesson.videos.filter fun v =>
              isCompleted m v.id).length : ℚ)
            / (lesson.videos.length : ℚ)) * 100) := by
        simp [getLessonProgress, h0]
      refine ⟨by rw [hval]; exact hb, fun hnil => ?_, fun _ => ?_⟩
      · rw [hnil] at h0
        simp at h0
      · rw [hval]
        congr 1
        ring
  · intro m course hWF
    have hCT : (course.lessons.map fun l =>
          (l.videos.filter fun v => isCompleted m v.id).length).sum ≤
        (course.lessons.map fun l => l.videos.length).sum :=
      List.sum_le_sum fun l _ => List.length_filter_le _ _
    by_cases h0 : course.totalVideos = 0
    · exact ⟨by simp [getCourseProgress, h0],
        fun _ => by simp [getCourseProgress, h0],
        fun hne => absurd h0 hne⟩
    · have hT0 : (course.lessons.map fun l => l.videos.length).sum ≠ 0 := by
        rw [← hWF]
        exact h0
      have hTpos : 0 < (course.lessons.map fun l => l.videos.length).sum :=
        Nat.pos_of_ne_zero hT0
      have hb := round_pct_bounds _ _ hCT hTpos
      have hval : getCourseProgress m course =
          round (((((course.lessons.map fun l =>
              (l.videos.filter fun v =>
                isCompleted m v.id).length).sum : ℕ) : ℚ)
            / ((((course.lessons.map fun l =>
                l.videos.length).sum : ℕ) : ℚ))) * 100) := by
        unfold getCourseProgress
        rw [if_neg h0, if_neg hT0]
      refine ⟨by rw [hval]; exact hb, fun h => absurd h h0, fun _ => ?_⟩
      rw [hval]
      congr 1
      ring

/-- Example video used for concrete witnesses. -/
def exVideo : Video :=
  { id := ("v1").data, name := [], filename := ("01.mp4").data
  , size := 1, duration := 100, sortOrder := ((1 : ℕ) : WithTop ℕ)
  , sortLabel := ("01").data, subtitleFile := none }

/-- Example lesson used for concrete witnesses. -/
def exLesson : Lesson :=
  { id := ("L").data, name := [], originalName := ("01-A").data
  , videos := [exVideo], totalVideos := 1, totalDuration := 100
  , sortOrder := ((1 : ℕ) : WithTop ℕ), sortLabel := ("01").data
  , thumbnail := [] }

/-- Example course used for concrete witnesses. -/
def exCourse : Course :=
  { id := ("C").data, title := [], originalName := ("R").data
  , lessons := [exLesson], totalLessons := 1, totalVideos := 1
  , totalDuration := 100 }

/-- Witness for C2 at a one-video lesson and course with an empty
progress store. -/
theorem c2_aggregate_progress_witness :
    (0 ≤ getLessonProgress emptyProgress exLesson
      ∧ getLessonProgress emptyProgress exLesson ≤ 100)
    ∧ getLessonProgress emptyProgress exLesson =
        round ((100 * (((exLesson.videos.filter fun v =>
            isCompleted emptyProgress v.id).length : ℕ) : ℚ))
          / ((exLesson.videos.length : ℚ)))
    ∧ (0 ≤ getCourseProgress emptyProgress exCourse
      ∧ getCourseProgress emptyProgress exCourse ≤ 100)
    ∧ getCourseProgress emptyProgress exCourse =
        round ((100 * (((exCourse.lessons.map fun l =>
            (l.videos.filter fun v =>
              isCompleted emptyProgress v.id).length).sum : ℕ) : ℚ))
          / ((((exCourse.lessons.map fun l =>
              l.videos.length).sum : ℕ) : ℚ))) := by
  have h1 := c2_aggregate_progress.1 emptyProgress exLesson
  have h2 := c2_aggregate_progress.2 emptyProgress exCourse (by decide)
  exact ⟨h1.1, h1.2.2 (by decide), h2.1, h2.2.2 (by decide)⟩

/-- C8: every probe failure yields duration `0` and no preview image,
and probe failures never change which items are assembled: the parsed
lesson has exactly one video per recognized media file, whatever the
probe outcomes, the video of a failed probe carrying duration `0`. -/
theorem c8_probe_failure_nonfatal :
    (getVideoDuration .err = 0 ∧ getVideoDuration .timeout = 0
      ∧ generateThumbnail .err = [] ∧ generateThumbnail .timeout = [])
    ∧ (∀ (dur : Str → Str → ProbeResult) (thumb : Str → ThumbResult)
        (parent : List FsEntry) (dirName : Str) (ents : List FsEntry)
        (courseName : Str),
        (parseLessonFolder dur thumb parent dirName ents
          courseName).videos.length = countVideoFiles ents)
    ∧ (∀ (dur : Str → Str → ProbeResult) (thumb : Str → ThumbResult)
        (parent : List FsEntry) (dirName : Str) (ents : List FsEntry)
        (courseName : Str) (n : Str) (sz : ℚ),
        FsEntry.file n sz ∈ ents → isVideoFile n = true →
        (dur dirName n).failed = true →
        ∃ v ∈ (parseLessonFolder dur thumb parent dirName ents
            courseName).videos,
          v.filename = n ∧ v.duration = 0)
    ∧ (∀ (dur : Str → Str → ProbeResult) (thumb : Str → ThumbResult)
        (parent : List FsEntry) (dirName : Str) (ents : List FsEntry)
        (courseName : Str),
        (thumb dirName).failed = true →
        (parseLessonFolder dur thumb parent dirName ents
          courseName).thumbnail = []) := by
  refine ⟨⟨rfl, rfl, rfl, rfl⟩, ?_, ?_, ?_⟩
  · intro dur thumb parent dirName ents courseName
    exact length_parseLessonFolder dur thumb parent dirName ents courseName
  · intro dur thumb parent dirName ents courseName n sz hmem hvid hfail
    refine ⟨{ id := generateVideoId courseName dirName n
            , name := cleanName (stripLastExt n)
            , filename := n
            , size := sz
            , duration := getVideoDuration (dur dirName n)
            , sortOrder := extractNumber n
            , sortLabel := extractNumLabel n
            , subtitleFile := findSubtitleForVideo parent dirName n }, ?_,
      rfl, getVideoDuration_failed hfail⟩
    show _ ∈ List.insertionSort vidLE
      (rawVideos dur parent dirName ents courseName)
    rw [(List.perm_insertionSort vidLE _).mem_iff]
    exact List.mem_filterMap.mpr ⟨FsEntry.file n sz, hmem, by simp [hvid]⟩
  · intro dur thumb parent dirName ents courseName hfail
    show (if (List.insertionSort vidLE
        (rawVideos dur parent dirName ents courseName)).isEmpty then []
      else generateThumbnail (thumb dirName)) = []
    rw [generateThumbnail_failed hfail]
    by_cases h : (List.insertionSort vidLE
        (rawVideos dur parent dirName ents courseName)).isEmpty <;> simp [h]

/-- Probe outcome function that fails for every file (decode error). -/
def durErr : Str → Str → ProbeResult := fun _ _ => .err

/-- Thumbnail outcome function that always times out. -/
def thumbErr : Str → ThumbResult := fun _ => .timeout

/-- Witness for C8: one lesson directory holding one media file whose
probe fails is still assembled, with duration 0 and no thumbnail. -/
theorem c8_probe_failure_nonfatal_witness :
    (parseLessonFolder durErr thumbErr [] (("01-A").data)
        [FsEntry.file (("01.mp4").data) 1] (("R").data)).videos.length =
      countVideoFiles [FsEntry.file (("01.mp4").data) 1]
    ∧ (∃ v ∈ (parseLessonFolder durErr thumbErr [] (("01-A").data)
          [FsEntry.file (("01.mp4").data) 1] (("R").data)).videos,
        v.filename = ("01.mp4").data ∧ v.duration = 0)
    ∧ (parseLessonFolder durErr thumbErr [] (("01-A").data)
        [FsEntry.file (("01.mp4").data) 1] (("R").data)).thumbnail = [] := by
  refine ⟨c8_probe_failure_nonfatal.2.1 durErr thumbErr [] (("01-A").data)
      [FsEntry.file (("01.mp4").data) 1] (("R").data), ?_, ?_⟩
  · exact c8_probe_failure_nonfatal.2.2.1 durErr thumbErr [] (("01-A").data)
      [FsEntry.file (("01.mp4").data) 1] (("R").data) (("01.mp4").data) 1
      (List.mem_singleton.mpr rfl) (by decide) rfl
  · exact c8_probe_failure_nonfatal.2.2.2 durErr thumbErr [] (("01-A").data)
      [FsEntry.file (("01.mp4").data) 1] (("R").data) rfl

/-- A root all of whose subdirectories hold no recognized media file
keeps no lesson. -/
lemma keptLessons_eq_nil_of_no_media (dur : Str → Str → ProbeResult)
    (thumb : Str → ThumbResult) (rootName : Str)
    (rootEntries : List FsEntry)
    (h : ∀ n ents, FsEntry.dir n ents ∈ rootEntries →
      countVideoFiles ents = 0) :
    keptLessons dur thumb rootName rootEntries = [] := by
  unfold keptLessons
  rw [List.filterMap_eq_nil_iff]
  intro e he
  cases e with
  | file n sz => rfl
  | dir n ents =>
      by_cases hs : strEndsWith n subtitleSuffix
      · simp [hs]
      · have hcount := h n ents he
        have hlen := length_parseLessonFolder dur thumb rootEntries n ents
          rootName
        have hempty : (parseLessonFolder dur thumb rootEntries n ents
            rootName).videos.isEmpty = true := by
          rw [List.isEmpty_iff]
          apply List.length_eq_zero.mp
          rw [hlen, hcount]
        simp [hs, hempty]

/-- C4: `selectFolder` reports the empty-catalog error exactly when no
section with at least one item remains (in particular when no
subdirectory holds a recognized media file), and it persists the
capability and the collection only on success. -/
theorem c4_empty_catalog :
    ∀ (dur : Str → Str → ProbeResult) (thumb : Str → ThumbResult)
      (rootName : Str) (rootEntries : List FsEntry),
      ((selectFolder dur thumb rootName rootEntries).1 =
          SelectOutcome.emptyCatalog ↔
        keptLessons dur thumb rootName rootEntries = [])
      ∧ ((selectFolder dur thumb rootName rootEntries).1 =
            SelectOutcome.emptyCatalog →
          (selectFolder dur thumb rootName rootEntries).2 = [])
      ∧ (∀ c, (selectFolder dur thumb rootName rootEntries).1 =
            SelectOutcome.ok c →
          (selectFolder dur thumb rootName rootEntries).2 =
            [PersistOp.saveFolderHandle c.id, PersistOp.saveCourse c.id])
      ∧ ((∀ n ents, FsEntry.dir n ents ∈ rootEntries →
            countVideoFiles ents = 0) →
          (selectFolder dur thumb rootName rootEntries).1 =
            SelectOutcome.emptyCatalog) := by
  intro dur thumb rootName rootEntries
  have hiff : (parseFolderStructure dur thumb rootName
        rootEntries).lessons.isEmpty = true ↔
      keptLessons dur thumb rootName rootEntries = [] := by
    show (List.insertionSort lesLE
      (keptLessons dur thumb rootName rootEntries)).isEmpty = true ↔ _
    rw [List.isEmpty_iff]
    constructor
    · intro h
      have hlen := congrArg List.length h
      rw [List.length_insertionSort] at hlen
      exact List.length_eq_zero.mp hlen
    · intro h
      rw [h]
      rfl
  by_cases hk : (parseFolderStructure dur thumb rootName
      rootEntries).lessons.isEmpty
  · have h1 : selectFolder dur thumb rootName rootEntries =
        (SelectOutcome.emptyCatalog, []) := by
      unfold selectFolder
      rw [if_pos hk]
    rw [h1]
    exact ⟨⟨fun _ => hiff.mp hk, fun _ => rfl⟩, fun _ => rfl,
      fun c hc => SelectOutcome.noConfusion hc, fun _ => rfl⟩
  · have hknot : ¬ keptLessons dur thumb rootName rootEntries = [] :=
      fun h => hk (hiff.mpr h)
    have h1 : selectFolder dur thumb rootName rootEntries =
        (SelectOutcome.ok (parseFolderStructure dur thumb rootName
            rootEntries),
          [PersistOp.saveFolderHandle (parseFolderStructure dur thumb
              rootName rootEntries).id,
            PersistOp.saveCourse (parseFolderStructure dur thumb rootName
              rootEntries).id]) := by
      unfold selectFolder
      rw [if_neg hk]
    rw [h1]
    refine ⟨⟨fun hc => SelectOutcome.noConfusion hc,
        fun h => absurd h hknot⟩,
      fun hc => SelectOutcome.noConfusion hc, fun c hc => ?_,
      fun hall => absurd (hiff.mpr
        (keptLessons_eq_nil_of_no_media dur thumb rootName rootEntries
          hall)) hk⟩
    injection hc with hcc
    rw [hcc]

/-- Root with a single subdirectory holding no recognized media. -/
def emptyMediaRoot : List FsEntry :=
  [FsEntry.dir (("01-A").data) [FsEntry.file (("notes.txt").data) 1]]

/-- Witness for C4: ingesting a root whose only subdirectory contains
no recognized media file fails with the empty-catalog error and
persists nothing. -/
theorem c4_empty_catalog_witness :
    (selectFolder durErr thumbErr (("Root").data) emptyMediaRoot).1 =
      SelectOutcome.emptyCatalog
    ∧ (selectFolder durErr thumbErr (("Root").data) emptyMediaRoot).2
        = [] := by
  have h := c4_empty_catalog durErr thumbErr (("Root").data) emptyMediaRoot
  have h1 := h.2.2.2 (by
    intro n ents hmem
    simp only [emptyMediaRoot, List.mem_singleton] at hmem
    injection hmem with hn hents
    rw [hents]
    decide)
  exact ⟨h1, h.2.1 h1⟩

/-- Sidecar directory for the C7 counterexample: the caption has a
`.vtt` extension, not `.srt`. -/
def cexParent : List FsEntry :=
  [FsEntry.dir (("01-A_subtitles").data)
    [FsEntry.file (("01-Intro.vtt").data) 0]]

/-- C7 counterexample: by the claim's wording (any file whose name
with extension stripped equals the item's base name), the `.vtt` file
is the match; the code matches only `.srt` files and yields none. -/
theorem c7_srt_only_counterexample :
    findSubtitleSpec cexParent (("01-A").data) (("01-Intro.mp4").data) =
      some (("01-Intro.vtt").data)
    ∧ findSubtitleForVideo cexParent (("01-A").data)
        (("01-Intro.mp4").data) = none := by
  constructor <;> decide

/-- Sidecar directory for the C7 positive example. -/
def exParent : List FsEntry :=
  [FsEntry.dir (("01-A_subtitles").data)
    [FsEntry.file (("01-Intro.srt").data) 0]]

/-- C7 amended: a caption match is the first file of the sidecar
directory `{sectionSourceName}_subtitles` whose lower-cased name ends
in `.srt` and whose name with the `.srt` extension stripped equals the
item's name with its extension stripped; a missing sidecar directory
or a missing match yields no caption, without error. -/
theorem c7_subtitle_matching :
    (∀ (parent : List FsEntry) (lessonName videoFilename : Str),
        getDirEntries parent (lessonName ++ subtitleSuffix) = none →
        findSubtitleForVideo parent lessonName videoFilename = none)
    ∧ (∀ (parent : List FsEntry) (lessonName videoFilename n : Str),
        findSubtitleForVideo parent lessonName videoFilename = some n →
        ∃ ents, getDirEntries parent (lessonName ++ subtitleSuffix) =
            some ents
          ∧ (∃ e ∈ ents, srtMatch (stripLastExt videoFilename) e = some n)
          ∧ strEndsWith (lowerStr n) srtExt = true
          ∧ stripSrt n = stripLastExt videoFilename)
    ∧ (∀ (parent : List FsEntry) (lessonName videoFilename : Str)
        (ents : List FsEntry),
        getDirEntries parent (lessonName ++ subtitleSuffix) = some ents →
        (∀ e ∈ ents, srtMatch (stripLastExt videoFilename) e = none) →
        findSubtitleForVideo parent lessonName videoFilename = none)
    ∧ findSubtitleForVideo exParent (("01-A").data)
        (("01-Intro.mp4").data) = some (("01-Intro.srt").data)
    ∧ findSubtitleForVideo exParent (("01-A").data)
        (("02-Next.mp4").data) = none := by
  refine ⟨?_, ?_, ?_, by decide, by decide⟩
  · intro parent lessonName videoFilename h
    unfold findSubtitleForVideo
    rw [h]
  · intro parent lessonName videoFilename n h
    unfold findSubtitleForVideo at h
    cases hd : getDirEntries parent (lessonName ++ subtitleSuffix) with
    | none => rw [hd] at h; cases h
    | some ents =>
        rw [hd] at h
        have hex := List.exists_of_findSome?_eq_some h
        rcases hex with ⟨e, he, hme⟩
        have hprops := srtMatch_some hme
        exact ⟨ents, rfl, ⟨e, he, hme⟩, hprops.1, hprops.2⟩
  · intro parent lessonName videoFilename ents hd hnone
    unfold findSubtitleForVideo
    rw [hd]
    exact List.findSome?_eq_none_iff.mpr hnone

/-- Witness for C7: a parent with no sidecar directory yields no
caption, and so does a sidecar directory with no matching entry. -/
theorem c7_subtitle_matching_witness :
    findSubtitleForVideo [] (("01-A").data) (("01-Intro.mp4").data) = none
    ∧ findSubtitleForVideo exParent (("01-B").data)
        (("01-Intro.mp4").data) = none
    ∧ (∃ ents, getDirEntries exParent ((("01-A").data) ++ subtitleSuffix)
          = some ents
        ∧ (∃ e ∈ ents, srtMatch (stripLastExt (("01-Intro.mp4").data)) e =
            some (("01-Intro.srt").data))
        ∧ strEndsWith (lowerStr (("01-Intro.srt").data)) srtExt = true
        ∧ stripSrt (("01-Intro.srt").data) =
            stripLastExt (("01-Intro.mp4").data)) := by
  refine ⟨?_, ?_, ?_⟩
  · exact c7_subtitle_matching.1 [] (("01-A").data) (("01-Intro.mp4").data)
      rfl
  · exact c7_subtitle_matching.1 exParent (("01-B").data)
      (("01-Intro.mp4").data) rfl
  · exact c7_subtitle_matching.2.1 exParent (("01-A").data)
      (("01-Intro.mp4").data) (("01-Intro.srt").data) (by decide)

/-- Root with two subdirectories enumerated out of order, used for the
C3 example. -/
def exampleRoot : List FsEntry :=
  [FsEntry.dir (("02-B").data) [FsEntry.file (("v.mp4").data) 1],
   FsEntry.dir (("01-A").data) [FsEntry.file (("w.mp4").data) 1]]

/-- C3: videos in a lesson and lessons in a course are sorted
ascending by `sortOrder`; the sorted list is a permutation of the
enumerated list, and elements of equal key keep their enumeration
order (stability, stated as commutation with filtering on any one key
value); ingesting a root enumerated as `"02-B"` then `"01-A"` puts
`"01-A"` first. -/
theorem c3_stable_sort_order :
    (∀ (dur : Str → Str → ProbeResult) (thumb : Str → ThumbResult)
        (parent : List FsEntry) (dirName : Str) (ents : List FsEntry)
        (courseName : Str),
        ((parseLessonFolder dur thumb parent dirName ents
            courseName).videos).Sorted vidLE
      ∧ ((parseLessonFolder dur thumb parent dirName ents
            courseName).videos).Perm
          (rawVideos dur parent dirName ents courseName)
      ∧ (∀ k : WithTop ℕ,
          ((parseLessonFolder dur thumb parent dirName ents
              courseName).videos).filter
                (fun v => decide (v.sortOrder = k)) =
            (rawVideos dur parent dirName ents courseName).filter
              (fun v => decide (v.sortOrder = k))))
    ∧ (∀ (dur : Str → Str → ProbeResult) (thumb : Str → ThumbResult)
        (rootName : Str) (rootEntries : List FsEntry),
        ((parseFolderStructure dur thumb rootName
            rootEntries).lessons).Sorted lesLE
      ∧ ((parseFolderStructure dur thumb rootName
            rootEntries).lessons).Perm
          (keptLessons dur thumb rootName rootEntries)
      ∧ (∀ k : WithTop ℕ,
          ((parseFolderStructure dur thumb rootName
              rootEntries).lessons).filter
                (fun l => decide (l.sortOrder = k)) =
            (keptLessons dur thumb rootName rootEntries).filter
              (fun l => decide (l.sortOrder = k))))
    ∧ (parseFolderStructure durErr thumbErr (("Root").data)
        exampleRoot).lessons.map Lesson.originalName =
        [("01-A").data, ("02-B").data] := by
  refine ⟨?_, ?_, by decide⟩
  · intro dur thumb parent dirName ents courseName
    refine ⟨List.sorted_insertionSort vidLE _,
      List.perm_insertionSort vidLE _, fun k => ?_⟩
    exact filter_key_insertionSort Video.sortOrder vidLE
      (fun a b => Iff.rfl) k
      (rawVideos dur parent dirName ents courseName)
  · intro dur thumb rootName rootEntries
    refine ⟨List.sorted_insertionSort lesLE _,
      List.perm_insertionSort lesLE _, fun k => ?_⟩
    exact filter_key_insertionSort Lesson.sortOrder lesLE
      (fun a b => Iff.rfl) k
      (keptLessons dur thumb rootName rootEntries)
